import Mathlib

/-!
# Verification of the MCP-RAG coordination substrate

A shallow embedding of the coordination core of the repository:

* `TaskManager` (src/src/coordination/task-manager.ts): an in-memory task
  cache with create / update / claim / complete / block / query operations.
* `ContextManager` (the versioned shared-state store): a pending queue of
  commit calls drained by a periodic flush that mutates the in-memory
  document and persists it.
* `RecoverySystem` (src/src/coordination/recovery/recovery-system.ts): the
  per-agent restart-bounded health supervisor.

Modelling conventions:

* JavaScript `Map` and plain objects are insertion-ordered string maps; we
  embed them as association lists (`List Task` keyed by `id`, and
  `List (String × _)`), with `set` replacing in place and appending fresh
  keys, exactly as the JS semantics does.
* ISO-8601 timestamp strings are embedded as `Nat`.  The code compares
  timestamps with `localeCompare` on same-format ISO strings, whose order
  coincides with numeric time order.
* JSON payload values (`any` in TypeScript) are embedded as opaque
  strings; no claim inspects their contents.
* A TypeScript `x?: T` field is `Option T`; JS truthiness of strings is
  modelled explicitly where the code branches on it (an absent value and
  the empty string are both falsy).
* I/O, logging and RAG-storage side effects do not influence the task
  cache or any return value; they are omitted.
* `Array.prototype.sort` (stable, comparator-driven: its output is the
  unique stable sort for the total preorder `cmp a b ≤ 0`) is embedded as
  the stable `List.insertionSort` over that preorder, which computes the
  same unique output.
-/

deriving instance DecidableEq for Except

namespace MCPRAG

/-- `TaskStatus` from src/src/types/tasks.ts. -/
inductive TaskStatus where
  | pending
  | in_progress
  | blocked
  | completed
  | cancelled
deriving DecidableEq, Repr, Inhabited

/-- `RoleName` from src/src/types/tasks.ts. -/
inductive RoleName where
  | auditor
  | implementer
  | validator
deriving DecidableEq, Repr

/-- `Task['results']` from src/src/types/tasks.ts (the `metrics` record of
`any` values is embedded as string pairs). -/
structure TaskResults where
  files : Option (List String)
  commands : Option (List String)
  tests : Option (List String)
  metrics : Option (List (String × String))
deriving DecidableEq, Repr

/-- `Task` from src/src/types/tasks.ts.  `priority` is 1–5 in the source
type; the embedding uses `Nat`. -/
structure Task where
  id : String
  title : String
  description : String
  tags : List String
  assignedRole : Option RoleName
  assignedTo : Option String
  status : TaskStatus
  priority : Nat
  dependencies : Option (List String)
  blockedBy : Option String
  context : Option String
  ragDocumentIds : Option (List String)
  createdBy : String
  createdAt : Nat
  updatedAt : Nat
  completedAt : Option Nat
  results : Option TaskResults
deriving DecidableEq, Repr, Inhabited

/-- `TaskUpdate` from src/src/types/tasks.ts.  Each field is `none` when
the key is absent from the patch object.  `results` is doubly optional:
`completeTask` builds the literal `{ status: 'completed', results }`, so
the `results` key can be present with value `undefined` (which the spread
in `updateTask` then writes over the task's previous `results`). -/
structure TaskUpdate where
  status : Option TaskStatus
  assignedTo : Option String
  blockedBy : Option String
  results : Option (Option TaskResults)
  ragDocumentIds : Option (List String)
deriving DecidableEq, Repr

/-- The `taskCache : Map<string, Task>` of `TaskManager`, as its
insertion-ordered list of values. -/
abbrev TaskCache := List Task

/-- `this.taskCache.get(taskId)`. -/
def cacheGet (cache : TaskCache) (taskId : String) : Option Task :=
  cache.find? (fun t => t.id == taskId)

/-- `this.taskCache.set(t.id, t)`: a JS `Map.set` replaces the value of an
existing key in place and appends a fresh key at the end. -/
def cacheSet (cache : TaskCache) (t : Task) : TaskCache :=
  if cache.any (fun u => u.id == t.id) then
    cache.map (fun u => if u.id == t.id then t else u)
  else
    cache ++ [t]

/-- The error cases thrown by `TaskManager` (the source throws `Error`
with distinguishing messages; the spec names them `NotFound`, `Conflict`
and `Forbidden`). -/
inductive TMError where
  | notFound (taskId : String)
  | alreadyAssigned (taskId assignedTo : String)
  | notAssignedTo (taskId completedBy : String)
deriving DecidableEq, Repr

/-- The merge `{...task, ...updates, updatedAt: now}` performed by
`updateTask` (task-manager.ts lines 88–98), followed by the
`completedAt` stamp when the patch sets status `completed` and the task
had no `completedAt` yet. -/
def mergePatch (task : Task) (updates : TaskUpdate) (now : Nat) : Task :=
  let merged : Task :=
    { task with
      status := updates.status.getD task.status
      assignedTo := match updates.assignedTo with
        | some a => some a
        | none => task.assignedTo
      blockedBy := match updates.blockedBy with
        | some b => some b
        | none => task.blockedBy
      results := match updates.results with
        | some r => r
        | none => task.results
      ragDocumentIds := match updates.ragDocumentIds with
        | some r => some r
        | none => task.ragDocumentIds
      updatedAt := now }
  if updates.status = some TaskStatus.completed ∧ task.completedAt = none then
    { merged with completedAt := some now }
  else
    merged

/-- `TaskManager.updateTask` (task-manager.ts lines 82–124).  Returns the
new cache together with the updated task. -/
def updateTask (cache : TaskCache) (taskId : String) (updates : TaskUpdate)
    (now : Nat) : Except TMError (TaskCache × Task) :=
  match cacheGet cache taskId with
  | none => Except.error (TMError.notFound taskId)
  | some task =>
      let updatedTask := mergePatch task updates now
      Except.ok (cacheSet cache updatedTask, updatedTask)

/-- Options bag of `TaskManager.createTask`. -/
structure CreateOptions where
  priority : Option Nat
  assignedRole : Option RoleName
  dependencies : Option (List String)
  context : Option String
deriving DecidableEq, Repr

/-- `TaskManager.createTask` (task-manager.ts lines 32–80).  The fresh
uuid-based id is supplied by the environment as `freshId`; `now` stands
for `new Date()`.  `options.priority || 3` defaults a missing (or zero,
by JS truthiness) priority to 3.  No validation of any kind is performed
on `dependencies`. -/
def createTask (cache : TaskCache) (freshId title description : String)
    (tags : List String) (createdBy : String) (options : CreateOptions)
    (now : Nat) : TaskCache × Task :=
  let task : Task :=
    { id := freshId
      title := title
      description := description
      tags := tags
      assignedRole := options.assignedRole
      assignedTo := none
      status := TaskStatus.pending
      priority := match options.priority with
        | some p => if p = 0 then 3 else p
        | none => 3
      dependencies := options.dependencies
      blockedBy := none
      context := options.context
      ragDocumentIds := none
      createdBy := createdBy
      createdAt := now
      updatedAt := now
      completedAt := none
      results := none }
  (cacheSet cache task, task)

/-- The patch literal `{ assignedTo: claimedBy, status: 'in_progress' }`
of `claimTask`. -/
def claimPatch (claimedBy : String) : TaskUpdate :=
  ⟨some TaskStatus.in_progress, some claimedBy, none, none, none⟩

/-- The patch literal `{ status: 'completed', results }` of
`completeTask` (the `results` key is always present). -/
def completePatch (results : Option TaskResults) : TaskUpdate :=
  ⟨some TaskStatus.completed, none, none, some results, none⟩

/-- The patch literal `{ status: 'blocked', blockedBy: reason }` of
`blockTask`. -/
def blockPatch (reason : String) : TaskUpdate :=
  ⟨some TaskStatus.blocked, none, some reason, none, none⟩

/-- `TaskManager.claimTask` (task-manager.ts lines 179–193).  The guard is
`task.assignedTo && task.assignedTo !== claimedBy`: an absent or empty
(falsy) `assignedTo` never conflicts. -/
def claimTask (cache : TaskCache) (taskId claimedBy : String) (now : Nat) :
    Except TMError (TaskCache × Task) :=
  match cacheGet cache taskId with
  | none => Except.error (TMError.notFound taskId)
  | some task =>
      match task.assignedTo with
      | some a =>
          if a ≠ "" ∧ a ≠ claimedBy then
            Except.error (TMError.alreadyAssigned taskId a)
          else
            updateTask cache taskId (claimPatch claimedBy) now
      | none =>
          updateTask cache taskId (claimPatch claimedBy) now

/-- `TaskManager.completeTask` (task-manager.ts lines 195–213).  The patch
literal `{ status: 'completed', results }` always carries the `results`
key, so the task's `results` becomes exactly the argument (clearing any
previous value when the argument is absent). -/
def completeTask (cache : TaskCache) (taskId completedBy : String)
    (results : Option TaskResults) (now : Nat) :
    Except TMError (TaskCache × Task) :=
  match cacheGet cache taskId with
  | none => Except.error (TMError.notFound taskId)
  | some task =>
      match task.assignedTo with
      | some a =>
          if a ≠ "" ∧ a ≠ completedBy then
            Except.error (TMError.notAssignedTo taskId completedBy)
          else
            updateTask cache taskId (completePatch results) now
      | none =>
          updateTask cache taskId (completePatch results) now

/-- `TaskManager.blockTask` (task-manager.ts lines 215–220). -/
def blockTask (cache : TaskCache) (taskId : String) (reason : String)
    (now : Nat) : Except TMError (TaskCache × Task) :=
  updateTask cache taskId (blockPatch reason) now

/-- `TaskFilter` from src/src/types/tasks.ts. -/
structure TaskFilter where
  tags : Option (List String)
  excludeTags : Option (List String)
  roles : Option (List RoleName)
  status : Option (List TaskStatus)
  priority : Option (List Nat)
  assignedTo : Option String
  includeCompleted : Option Bool
deriving DecidableEq, Repr

/-- The sort comparator of `getTasks` (task-manager.ts lines 165–170), as
the total preorder `cmp a b ≤ 0`: priority descending, then `createdAt`
ascending. -/
def taskOrd (a b : Task) : Prop :=
  b.priority < a.priority ∨ (a.priority = b.priority ∧ a.createdAt ≤ b.createdAt)

instance : DecidableRel taskOrd :=
  fun a b =>
    inferInstanceAs
      (Decidable (b.priority < a.priority ∨ (a.priority = b.priority ∧ a.createdAt ≤ b.createdAt)))

instance : IsTotal Task taskOrd :=
  ⟨fun a b => by unfold taskOrd; omega⟩

instance : IsTrans Task taskOrd :=
  ⟨fun a b c hab hbc => by unfold taskOrd at *; omega⟩

/-- The filtering phase of `TaskManager.getTasks` (task-manager.ts lines
126–162), applied in source order.  Each list-valued filter only applies
when present and non-empty (`filter.xs && filter.xs.length > 0`);
`assignedTo` only applies when truthy (present and non-empty). -/
def filterTasks (cache : TaskCache) (filter : TaskFilter) : List Task :=
  let tasks := cache
  let tasks := match filter.tags with
    | some fts =>
        if 0 < fts.length then
          tasks.filter (fun t => fts.any (fun tag => t.tags.contains tag))
        else tasks
    | none => tasks
  let tasks := match filter.excludeTags with
    | some fts =>
        if 0 < fts.length then
          tasks.filter (fun t => !fts.any (fun tag => t.tags.contains tag))
        else tasks
    | none => tasks
  let tasks := match filter.roles with
    | some rs =>
        if 0 < rs.length then
          tasks.filter (fun t => match t.assignedRole with
            | some r => rs.contains r
            | none => false)
        else tasks
    | none => tasks
  let tasks := match filter.status with
    | some ss =>
        if 0 < ss.length then tasks.filter (fun t => ss.contains t.status)
        else tasks
    | none => tasks
  let tasks := match filter.priority with
    | some ps =>
        if 0 < ps.length then tasks.filter (fun t => ps.contains t.priority)
        else tasks
    | none => tasks
  let tasks := match filter.assignedTo with
    | some w =>
        if w ≠ "" then tasks.filter (fun t => decide (t.assignedTo = some w))
        else tasks
    | none => tasks
  let tasks := if filter.includeCompleted ≠ some true then
      tasks.filter (fun t => decide (t.status ≠ TaskStatus.completed))
    else tasks
  tasks

/-- `TaskManager.getTasks` (task-manager.ts lines 126–173): filter, then
stable-sort by priority descending / `createdAt` ascending. -/
def getTasks (cache : TaskCache) (filter : TaskFilter) : List Task :=
  (filterTasks cache filter).insertionSort taskOrd

/-- The role configuration consumed by `getTasksForRole` (see
src/agents/validator/config.json for its shape). -/
structure RoleConfig where
  watchTags : List String
  ignoreTags : List String
  priorityThreshold : Option Nat
deriving DecidableEq, Repr

/-- The `TaskFilter` built by `getTasksForRole` (task-manager.ts lines
223–230): watch/ignore tags, statuses `pending`/`blocked`, and the
priority band `[threshold, 4, 5].filter(p => p >= threshold)` when a
(truthy) threshold is configured. -/
def roleFilter (roleConfig : RoleConfig) : TaskFilter :=
  { tags := some roleConfig.watchTags
    excludeTags := some roleConfig.ignoreTags
    roles := none
    status := some [TaskStatus.pending, TaskStatus.blocked]
    priority := match roleConfig.priorityThreshold with
      | some p => if p ≠ 0 then some (([p, 4, 5]).filter (fun q => p ≤ q)) else none
      | none => none
    assignedTo := none
    includeCompleted := none }

/-- The dependency gate of `getTasksForRole` (task-manager.ts lines
235–245): a task passes when it has no (or an empty) `dependencies` list,
or when every listed id resolves in the cache to a `completed` task. -/
def depsMet (cache : TaskCache) (t : Task) : Bool :=
  match t.dependencies with
  | none => true
  | some ds =>
      if ds.length = 0 then true
      else ds.all (fun depId => match cacheGet cache depId with
        | some depTask => depTask.status == TaskStatus.completed
        | none => false)

/-- `TaskManager.getTasksForRole` (task-manager.ts lines 222–246).  The
`roleName` parameter is accepted and unused, as in the source. -/
def getTasksForRole (cache : TaskCache) (roleName : String)
    (roleConfig : RoleConfig) : List Task :=
  let _ := roleName
  (getTasks cache (roleFilter roleConfig)).filter (fun t => depsMet cache t)

/-! ## ContextManager (the versioned shared-state store)

Embedding of the `ContextManager` class (src/unnamed/part_009 lines
322–542): the `SharedContext` document, the pending `updateQueue`, the
flush routine `processUpdateQueue` (its successful path — persistence I/O
failures, which re-queue, are outside the claims being verified), the
queuing commit call `updateContext`, and the non-blocking read
`getContext` (its keyed variant projects from the same committed
document, so the keyless path is modelled).
-/

/-- Opaque JSON payload values (`any` in the source); no claim inspects
their contents. -/
abbrev JSVal := String

/-- The slice of an agent-state record touched by `applyUpdate` (the
heartbeat stamp); other fields are irrelevant to the claims. -/
structure AgentInfo where
  state : String
  lastHeartbeat : Nat
deriving DecidableEq, Repr

/-- `SharedContext`, the versioned document persisted by the store. -/
structure SharedContext where
  version : Nat
  taskQueue : List JSVal
  currentTask : Option JSVal
  agentStates : List (String × AgentInfo)
  globalState : List (String × JSVal)
  lastUpdated : Nat
deriving DecidableEq, Repr

/-- `createEmptyContext` (part_009 lines 344–352). -/
def createEmptyContext (now : Nat) : SharedContext :=
  { version := 1
    taskQueue := []
    currentTask := none
    agentStates := []
    globalState := []
    lastUpdated := now }

/-- JS object property read `m[k]`. -/
def objGet (m : List (String × α)) (k : String) : Option α :=
  (m.find? (fun p => p.1 == k)).map (fun p => p.2)

/-- JS object property write `m[k] = v` (replace in place, else append). -/
def objSet (m : List (String × α)) (k : String) (v : α) : List (String × α) :=
  if m.any (fun p => p.1 == k) then
    m.map (fun p => if p.1 == k then (k, v) else p)
  else
    m ++ [(k, v)]

/-- JS `delete m[k]`. -/
def objDelete (m : List (String × α)) (k : String) : List (String × α) :=
  m.filter (fun p => p.1 != k)

/-- One queued `updateContext` call: a flat map of keys to new values
(`none` = `null`/`undefined`, which deletes the key) plus the calling
agent's id. -/
structure QueuedUpdate where
  updates : List (String × Option JSVal)
  agentId : String
deriving DecidableEq, Repr

/-- `ContextManager.applyUpdate` (part_009 lines 436–458): bump `version`
by one, apply every key mutation to `globalState` in order, stamp
`lastUpdated`, and refresh the calling agent's heartbeat when it has a
state record. -/
def applyUpdate (ctx : SharedContext) (updates : List (String × Option JSVal))
    (agentId : String) (now : Nat) : SharedContext :=
  let ctx1 : SharedContext := { ctx with version := ctx.version + 1 }
  let ctx2 : SharedContext :=
    { ctx1 with
      globalState := updates.foldl
        (fun gs kv => match kv.2 with
          | none => objDelete gs kv.1
          | some v => objSet gs kv.1 v)
        ctx1.globalState }
  let ctx3 : SharedContext := { ctx2 with lastUpdated := now }
  match objGet ctx3.agentStates agentId with
  | some info =>
      { ctx3 with
        agentStates := objSet ctx3.agentStates agentId { info with lastHeartbeat := now } }
  | none => ctx3

/-- The mutable fields of `ContextManager` relevant here: the committed
in-memory document, the pending queue, and the time of the last flush.
(`isProcessing` is a re-entrancy latch; the embedding is the
single-threaded semantics in which it is `false` at every entry.) -/
structure CMState where
  context : SharedContext
  updateQueue : List QueuedUpdate
  lastUpdate : Nat
deriving DecidableEq, Repr

/-- `ContextManager.processUpdateQueue` (part_009 lines 399–434),
successful path: an empty queue is a no-op; otherwise every pending
update is applied in submission order, the queue is cleared and the
flush time stamped. -/
def processUpdateQueue (s : CMState) (now : Nat) : CMState :=
  if s.updateQueue.length = 0 then s
  else
    { context := s.updateQueue.foldl
        (fun c u => applyUpdate c u.updates u.agentId now) s.context
      updateQueue := []
      lastUpdate := now }

/-- `ContextManager.updateContext` (part_009 lines 460–467): enqueue the
commit; when at least `updateInterval` has elapsed since the last flush,
additionally trigger an immediate flush. -/
def updateContext (s : CMState) (updates : List (String × Option JSVal))
    (agentId : String) (now : Nat) (updateInterval : Nat) : CMState :=
  let s1 : CMState := { s with updateQueue := s.updateQueue ++ [⟨updates, agentId⟩] }
  if updateInterval ≤ now - s.lastUpdate then processUpdateQueue s1 now else s1

/-- `ContextManager.getContext` with no keys (part_009 lines 469–489):
returns the committed in-memory document, never consulting the pending
queue. -/
def getContext (s : CMState) : SharedContext :=
  s.context

/-! ## RecoverySystem (the health supervisor)

Embedding of the restart-bounding logic of
src/src/coordination/recovery/recovery-system.ts.
-/

/-- The per-agent supervision record (`AgentProcess`), restricted to the
fields the restart bound depends on. -/
structure AgentProcess where
  id : String
  restartCount : Nat
  isHealthy : Bool
deriving DecidableEq, Repr

/-- What one `handleUnhealthyAgent` call did: issued a stop-then-start
restart, or emitted the `agentFailed` signal and returned. -/
inductive RecoveryOutcome where
  | restarted
  | failedSignal
deriving DecidableEq, Repr

/-- `RecoverySystem.handleUnhealthyAgent` (recovery-system.ts lines
235–265): when the agent's restart counter has reached the configured
maximum, emit `agentFailed` and return without touching the agent;
otherwise stop, wait, increment the counter and start again (the
successful restart marks the agent healthy). -/
def handleUnhealthyAgent (maxRestartAttempts : Nat) (agent : AgentProcess) :
    AgentProcess × RecoveryOutcome :=
  if maxRestartAttempts ≤ agent.restartCount then
    (agent, RecoveryOutcome.failedSignal)
  else
    ({ agent with restartCount := agent.restartCount + 1, isHealthy := true },
      RecoveryOutcome.restarted)

/-- Iterate `handleUnhealthyAgent` over `n` successive unhealthy
evaluations, returning the final agent record and the number of restarts
actually issued. -/
def restartsIssued (maxRestartAttempts : Nat) (agent : AgentProcess) :
    Nat → AgentProcess × Nat
  | 0 => (agent, 0)
  | n + 1 =>
      let step := handleUnhealthyAgent maxRestartAttempts agent
      let rest := restartsIssued maxRestartAttempts step.1 n
      (rest.1, (if step.2 = RecoveryOutcome.restarted then 1 else 0) + rest.2)

/-! ## Concrete inputs used by the claim theorems and witnesses -/

/-- A filter with every field absent (`getTasks({})`). -/
def emptyFilter : TaskFilter :=
  ⟨none, none, none, none, none, none, none⟩

/-- Option bag with only a priority. -/
def priorityOpts (p : Nat) : CreateOptions :=
  ⟨some p, none, none, none⟩

/-- A completed task, for exercising status transitions out of
`completed`. -/
def taskDone : Task :=
  { id := "done-1"
    title := "finished work"
    description := "a task already completed"
    tags := ["FEATURE"]
    assignedRole := none
    assignedTo := none
    status := TaskStatus.completed
    priority := 3
    dependencies := none
    blockedBy := none
    context := none
    ragDocumentIds := none
    createdBy := "creator"
    createdAt := 1
    updatedAt := 2
    completedAt := some 2
    results := none }

/-- A cancelled, unassigned task. -/
def taskCancelled : Task :=
  { taskDone with id := "cancel-1", status := TaskStatus.cancelled, completedAt := none }

/-- A pending, unassigned task. -/
def taskPending : Task :=
  { taskDone with id := "pend-1", status := TaskStatus.pending, completedAt := none }

/-- A patch setting status back to `pending`. -/
def patchPending : TaskUpdate :=
  ⟨some TaskStatus.pending, none, none, none, none⟩

/-- A patch setting status to `cancelled`. -/
def patchCancelled : TaskUpdate :=
  ⟨some TaskStatus.cancelled, none, none, none, none⟩

/-- Scenario of spec §8: registry after creating `T1` (priority 5, tag
FEATURE, no dependencies). -/
def scnCache1 : TaskCache :=
  (createTask [] "T1" "task one" "first step" ["FEATURE"] "creator" (priorityOpts 5) 10).1

/-- The record of `T2` (priority 5, tag TEST, depends on `T1`). -/
def scnT2 : Task :=
  (createTask scnCache1 "T2" "task two" "second step" ["TEST"] "creator"
    ⟨some 5, none, some ["T1"], none⟩ 20).2

/-- Registry after also creating `T2`. -/
def scnCache2 : TaskCache :=
  (createTask scnCache1 "T2" "task two" "second step" ["TEST"] "creator"
    ⟨some 5, none, some ["T1"], none⟩ 20).1

/-- The worker role watching tag TEST. -/
def roleTEST : RoleConfig :=
  ⟨["TEST"], [], none⟩

/-- Registry after `T1` is completed by worker-1. -/
def scnCache3 : TaskCache :=
  match completeTask scnCache2 "T1" "worker-1" none 30 with
  | Except.ok p => p.1
  | Except.error _ => []

/-- The completed record of `T1`. -/
def scnT1done : Task :=
  match completeTask scnCache2 "T1" "worker-1" none 30 with
  | Except.ok p => p.2
  | Except.error _ => default

/-- Ordering example: registry holding tasks of priorities 2, 5, 3
created in that order (ids A, B, C at times 1, 2, 3). -/
def ordCache : TaskCache :=
  (createTask
    ((createTask
      ((createTask [] "A" "task a" "low" [] "creator" (priorityOpts 2) 1).1)
      "B" "task b" "high" [] "creator" (priorityOpts 5) 2).1)
    "C" "task c" "mid" [] "creator" (priorityOpts 3) 3).1

/-- The three records of `ordCache`. -/
def ordA : Task :=
  (createTask [] "A" "task a" "low" [] "creator" (priorityOpts 2) 1).2

/-- Second record of `ordCache`. -/
def ordB : Task :=
  (createTask [ordA] "B" "task b" "high" [] "creator" (priorityOpts 5) 2).2

/-- Third record of `ordCache`. -/
def ordC : Task :=
  (createTask [ordA, ordB] "C" "task c" "mid" [] "creator" (priorityOpts 3) 3).2

/-- Equal-priority FIFO example: two priority-3 tasks created at times
1 < 2. -/
def fifoCache : TaskCache :=
  (createTask
    ((createTask [] "E1" "early" "t1" [] "creator" (priorityOpts 3) 1).1)
    "E2" "late" "t2" [] "creator" (priorityOpts 3) 2).1

/-- First (earlier) record of `fifoCache`. -/
def fifoE1 : Task :=
  (createTask [] "E1" "early" "t1" [] "creator" (priorityOpts 3) 1).2

/-- Second (later) record of `fifoCache`. -/
def fifoE2 : Task :=
  (createTask [fifoE1] "E2" "late" "t2" [] "creator" (priorityOpts 3) 2).2

/-- Ghost-dependency creation: a task whose dependencies name an id that
does not exist in the registry. -/
def ghostCreate : TaskCache × Task :=
  createTask [] "task-7" "orphan deps" "depends on a ghost" [] "creator"
    ⟨some 2, none, some ["ghost"], none⟩ 3

/-- A context-store state with two commits pending and none flushed. -/
def twoCommitState : CMState :=
  { context := createEmptyContext 0
    updateQueue :=
      [⟨[("progress", some "50")], "agent-1"⟩, ⟨[("phase", some "build")], "agent-2"⟩]
    lastUpdate := 0 }

/-- An idle context-store state (empty queue, freshly initialized). -/
def idleCMState : CMState :=
  { context := createEmptyContext 0
    updateQueue := []
    lastUpdate := 0 }

/-- The fields of a task that no update / claim / complete / block
operation is allowed to touch (everything except the `TaskUpdate` patch
fields, `updatedAt` and `completedAt`). -/
def sameCore (t u : Task) : Prop :=
  t.id = u.id ∧ t.title = u.title ∧ t.description = u.description ∧
    t.tags = u.tags ∧ t.priority = u.priority ∧ t.dependencies = u.dependencies ∧
    t.createdBy = u.createdBy ∧ t.createdAt = u.createdAt

/-! ## Helper lemmas -/

theorem cacheGet_some_id {cache : TaskCache} {taskId : String} {t : Task}
    (h : cacheGet cache taskId = some t) : t.id = taskId := by
  have hp := List.find?_some h
  simpa using hp

theorem find?_map_replace (t : Task) :
    ∀ cache : List Task, cache.any (fun u => u.id == t.id) = true →
      (cache.map (fun u => if u.id == t.id then t else u)).find? (fun u => u.id == t.id) =
        some t := by
  intro cache h
  induction cache with
  | nil => simp at h
  | cons u rest ih =>
      simp only [List.any_cons, Bool.or_eq_true] at h
      simp only [List.map_cons]
      by_cases hu : (u.id == t.id) = true
      · rw [if_pos hu]
        exact List.find?_cons_of_pos _ (by simp)
      · rw [if_neg hu]
        rw [List.find?_cons_of_neg _ (by simpa using hu)]
        exact ih (h.resolve_left hu)

theorem find?_append_fresh (t : Task) :
    ∀ cache : List Task, cache.any (fun u => u.id == t.id) = false →
      (cache ++ [t]).find? (fun u => u.id == t.id) = some t := by
  intro cache h
  induction cache with
  | nil => exact List.find?_cons_of_pos _ (by simp)
  | cons u rest ih =>
      simp only [List.any_cons, Bool.or_eq_false_iff] at h
      rw [List.cons_append, List.find?_cons_of_neg _ (by simp [h.1])]
      exact ih h.2

theorem cacheGet_cacheSet_self (cache : TaskCache) (t : Task) :
    cacheGet (cacheSet cache t) t.id = some t := by
  unfold cacheSet cacheGet
  by_cases h : cache.any (fun u => u.id == t.id) = true
  · rw [if_pos h]
    exact find?_map_replace t cache h
  · rw [if_neg h]
    exact find?_append_fresh t cache (by simpa using h)

theorem mergePatch_sameCore (task : Task) (u : TaskUpdate) (now : Nat) :
    sameCore (mergePatch task u now) task := by
  by_cases h : u.status = some TaskStatus.completed ∧ task.completedAt = none
  · simp [mergePatch, h, sameCore]
  · simp [mergePatch, h, sameCore]

theorem mergePatch_status_none {task : Task} {u : TaskUpdate} {now : Nat}
    (h : u.status = none) : (mergePatch task u now).status = task.status := by
  simp [mergePatch, h]

theorem mergePatch_assignedTo_none {task : Task} {u : TaskUpdate} {now : Nat}
    (h : u.assignedTo = none) : (mergePatch task u now).assignedTo = task.assignedTo := by
  by_cases h2 : u.status = some TaskStatus.completed ∧ task.completedAt = none
  · simp [mergePatch, h, h2]
  · simp [mergePatch, h, h2]

theorem mergePatch_blockedBy_none {task : Task} {u : TaskUpdate} {now : Nat}
    (h : u.blockedBy = none) : (mergePatch task u now).blockedBy = task.blockedBy := by
  by_cases h2 : u.status = some TaskStatus.completed ∧ task.completedAt = none
  · simp [mergePatch, h, h2]
  · simp [mergePatch, h, h2]

theorem mergePatch_results_none {task : Task} {u : TaskUpdate} {now : Nat}
    (h : u.results = none) : (mergePatch task u now).results = task.results := by
  by_cases h2 : u.status = some TaskStatus.completed ∧ task.completedAt = none
  · simp [mergePatch, h, h2]
  · simp [mergePatch, h, h2]

theorem mergePatch_ragDocumentIds_none {task : Task} {u : TaskUpdate} {now : Nat}
    (h : u.ragDocumentIds = none) :
    (mergePatch task u now).ragDocumentIds = task.ragDocumentIds := by
  by_cases h2 : u.status = some TaskStatus.completed ∧ task.completedAt = none
  · simp [mergePatch, h, h2]
  · simp [mergePatch, h, h2]

theorem updateTask_found {cache : TaskCache} {taskId : String} {task : Task}
    (h : cacheGet cache taskId = some task) (u : TaskUpdate) (now : Nat) :
    updateTask cache taskId u now =
      Except.ok (cacheSet cache (mergePatch task u now), mergePatch task u now) := by
  unfold updateTask
  rw [h]

theorem updateTask_ok_eq {cache : TaskCache} {taskId : String} {u : TaskUpdate}
    {now : Nat} {cache2 : TaskCache} {task2 : Task}
    (h : updateTask cache taskId u now = Except.ok (cache2, task2)) :
    ∃ task, cacheGet cache taskId = some task ∧ task2 = mergePatch task u now ∧
      cache2 = cacheSet cache task2 := by
  unfold updateTask at h
  cases hg : cacheGet cache taskId with
  | none => rw [hg] at h; exact absurd h (by simp)
  | some task =>
      rw [hg] at h
      simp only [Except.ok.injEq, Prod.mk.injEq] at h
      exact ⟨task, rfl, h.2.symm, by rw [← h.1, h.2]⟩

theorem applyUpdate_version (ctx : SharedContext) (updates : List (String × Option JSVal))
    (agentId : String) (now : Nat) :
    (applyUpdate ctx updates agentId now).version = ctx.version + 1 := by
  unfold applyUpdate
  dsimp only
  split <;> rfl

theorem foldl_applyUpdate_version (q : List QueuedUpdate) (c : SharedContext) (now : Nat) :
    (q.foldl (fun c u => applyUpdate c u.updates u.agentId now) c).version =
      c.version + q.length := by
  induction q generalizing c with
  | nil => simp
  | cons u rest ih =>
      simp only [List.foldl_cons, List.length_cons]
      rw [ih, applyUpdate_version]
      omega

theorem claimTask_ok_exists_patch {cache : TaskCache} {taskId claimedBy : String}
    {now : Nat} {cache2 : TaskCache} {task2 : Task}
    (h : claimTask cache taskId claimedBy now = Except.ok (cache2, task2)) :
    ∃ u, updateTask cache taskId u now = Except.ok (cache2, task2) := by
  unfold claimTask at h
  cases hget : cacheGet cache taskId with
  | none => rw [hget] at h; exact absurd h (by simp)
  | some task =>
      rw [hget] at h
      dsimp only at h
      cases hassigned : task.assignedTo with
      | some a =>
          rw [hassigned] at h
          dsimp only at h
          by_cases hc : a ≠ "" ∧ a ≠ claimedBy
          · rw [if_pos hc] at h; exact absurd h (by simp)
          · rw [if_neg hc] at h; exact ⟨_, h⟩
      | none =>
          rw [hassigned] at h
          dsimp only at h
          exact ⟨_, h⟩

theorem completeTask_ok_exists_patch {cache : TaskCache} {taskId completedBy : String}
    {results : Option TaskResults} {now : Nat} {cache2 : TaskCache} {task2 : Task}
    (h : completeTask cache taskId completedBy results now = Except.ok (cache2, task2)) :
    ∃ u, updateTask cache taskId u now = Except.ok (cache2, task2) := by
  unfold completeTask at h
  cases hget : cacheGet cache taskId with
  | none => rw [hget] at h; exact absurd h (by simp)
  | some task =>
      rw [hget] at h
      dsimp only at h
      cases hassigned : task.assignedTo with
      | some a =>
          rw [hassigned] at h
          dsimp only at h
          by_cases hc : a ≠ "" ∧ a ≠ completedBy
          · rw [if_pos hc] at h; exact absurd h (by simp)
          · rw [if_neg hc] at h; exact ⟨_, h⟩
      | none =>
          rw [hassigned] at h
          dsimp only at h
          exact ⟨_, h⟩

theorem updateTask_ok_frame {cache : TaskCache} {taskId : String} {u : TaskUpdate}
    {now : Nat} {task : Task} {cache2 : TaskCache} {task2 : Task}
    (hget : cacheGet cache taskId = some task)
    (h : updateTask cache taskId u now = Except.ok (cache2, task2)) :
    sameCore task2 task := by
  obtain ⟨task', hget', ht2, _⟩ := updateTask_ok_eq h
  rw [hget] at hget'
  cases hget'
  rw [ht2]
  exact mergePatch_sameCore task u now

theorem restartsIssued_eq_min (maxR : Nat) (n : Nat) (agent : AgentProcess) :
    (restartsIssued maxR agent n).2 = min n (maxR - agent.restartCount) := by
  induction n generalizing agent with
  | zero => simp [restartsIssued]
  | succ n ih =>
      unfold restartsIssued handleUnhealthyAgent
      by_cases h : maxR ≤ agent.restartCount
      · simp only [h, if_true]
        rw [ih]
        simp only [reduceCtorEq, if_false]
        omega
      · simp only [h, if_false]
        rw [ih]
        simp only [if_true]
        omega

/-! ## Claim theorems -/

/-- C1 (counterexample): a flush cycle that drains two pending commit
calls increments `version` by two, not by exactly one — `applyUpdate`
bumps `version` once per queued `updateContext` entry, and
`processUpdateQueue` calls it once per entry. -/
theorem flush_version_not_once_per_flush :
    twoCommitState.updateQueue.length = 2 ∧
    (processUpdateQueue twoCommitState 10).context.version ≠
      twoCommitState.context.version + 1 := by
  decide

/-- C1 (amended): each flush cycle increments `version` by the number of
pending commit (`updateContext`) entries it applies — exactly one per
entry (regardless of how many key mutations the entry carries), not one
per flush; a flush of an empty queue leaves `version` unchanged. -/
theorem flush_version_once_per_commit_entry :
    (∀ (s : CMState) (now : Nat),
        (processUpdateQueue s now).context.version =
          s.context.version + s.updateQueue.length) ∧
    (∀ (ctx : SharedContext) (kvs : List (String × Option JSVal))
        (agentId : String) (now : Nat),
        (applyUpdate ctx kvs agentId now).version = ctx.version + 1) := by
  constructor
  · intro s now
    unfold processUpdateQueue
    by_cases h : s.updateQueue.length = 0
    · rw [if_pos h, h]
      rfl
    · rw [if_neg h]
      exact foldl_applyUpdate_version _ _ _
  · exact applyUpdate_version

/-- C2 (counterexample): updating a `completed` task to status `pending`
succeeds and changes the task — the code has no transition validation, so
the update does not fail with `InvalidTransition`. -/
theorem completed_to_pending_succeeds :
    taskDone.status = TaskStatus.completed ∧
    (updateTask [taskDone] "done-1" patchPending 5).map (fun p => p.2.status) =
      Except.ok TaskStatus.pending := by
  decide

/-- C2 (amended): `updateTask` performs no status-transition validation:
every update of an existing task succeeds and merges the patch verbatim,
whatever the current status — in particular `completed → pending`
succeeds, `cancelled → in_progress` succeeds via claim on an unassigned
task, and `pending → cancelled` succeeds.  No `InvalidTransition` error
exists in the code. -/
theorem update_has_no_transition_validation :
    (∀ (cache : TaskCache) (taskId : String) (u : TaskUpdate) (now : Nat) (task : Task),
        cacheGet cache taskId = some task →
        updateTask cache taskId u now =
          Except.ok (cacheSet cache (mergePatch task u now), mergePatch task u now)) ∧
    (claimTask [taskCancelled] "cancel-1" "worker-1" 5).map (fun p => p.2.status) =
      Except.ok TaskStatus.in_progress ∧
    (updateTask [taskPending] "pend-1" patchCancelled 5).map (fun p => p.2.status) =
      Except.ok TaskStatus.cancelled := by
  refine ⟨?_, by decide, by decide⟩
  intro cache taskId u now task h
  exact updateTask_found h u now

/-- C2 (witness): the amended theorem applied to a concrete completed
task. -/
theorem update_has_no_transition_validation_witness :
    cacheGet [taskDone] "done-1" = some taskDone ∧
    updateTask [taskDone] "done-1" patchPending 5 =
      Except.ok (cacheSet [taskDone] (mergePatch taskDone patchPending 5),
        mergePatch taskDone patchPending 5) :=
  ⟨by decide,
    update_has_no_transition_validation.1 [taskDone] "done-1" patchPending 5 taskDone
      (by decide)⟩

/-- C3: worker polling (`getTasksForRole`) returns exactly the tasks that
pass the role filter and whose dependencies are all `completed` in the
cache, so a task with an incomplete dependency is absent even when it
matches the tag/status/priority filter; in the spec §8 scenario, `T2`
(tag TEST, depending on `T1`) is absent while `T1` is pending and appears
in the first poll after `T1` is completed. -/
theorem dependency_gating :
    (∀ (cache : TaskCache) (roleName : String) (rc : RoleConfig) (t : Task),
        t ∈ getTasksForRole cache roleName rc ↔
          t ∈ getTasks cache (roleFilter rc) ∧ depsMet cache t = true) ∧
    scnT2 ∈ getTasks scnCache2 (roleFilter roleTEST) ∧
    depsMet scnCache2 scnT2 = false ∧
    getTasksForRole scnCache2 "validator" roleTEST = [] ∧
    completeTask scnCache2 "T1" "worker-1" none 30 = Except.ok (scnCache3, scnT1done) ∧
    getTasksForRole scnCache3 "validator" roleTEST = [scnT2] := by
  refine ⟨?_, by decide, by decide, by decide, by decide, by decide⟩
  intro cache roleName rc t
  simp [getTasksForRole, List.mem_filter]

/-- C4: a commit (`updateContext`) that does not trigger the
interval-elapsed immediate flush only appends to the pending queue: a
read (`getContext`) issued after the commit and before the next flush
returns the same committed document as before the commit, without the
just-submitted mutation. -/
theorem read_returns_last_committed :
    ∀ (s : CMState) (updates : List (String × Option JSVal)) (agentId : String)
      (now updateInterval : Nat),
      now - s.lastUpdate < updateInterval →
      getContext (updateContext s updates agentId now updateInterval) = getContext s ∧
      (updateContext s updates agentId now updateInterval).updateQueue =
        s.updateQueue ++ [⟨updates, agentId⟩] := by
  intro s u a now itv h
  unfold updateContext getContext
  dsimp only
  rw [if_neg (by omega)]
  exact ⟨rfl, rfl⟩

/-- C4 (witness): a commit into the idle store with the flush interval
not yet elapsed leaves the committed document unchanged. -/
theorem read_returns_last_committed_witness :
    (0 : Nat) - idleCMState.lastUpdate < 5 ∧
    getContext (updateContext idleCMState [("progress", some "10")] "agent-1" 0 5) =
      getContext idleCMState ∧
    (updateContext idleCMState [("progress", some "10")] "agent-1" 0 5).updateQueue =
      idleCMState.updateQueue ++ [⟨[("progress", some "10")], "agent-1"⟩] :=
  ⟨by decide,
    read_returns_last_committed idleCMState [("progress", some "10")] "agent-1" 0 5
      (by decide)⟩

/-- C5: provided worker ids are non-empty strings, `claimTask` fails with
the already-assigned (Conflict) error exactly when `assignedTo` holds a
different worker, and otherwise succeeds setting `assignedTo` to the
claimer and status to `in_progress`; hence of two sequential claims on an
unassigned task by different workers, the first succeeds and the second
receives the Conflict error. -/
theorem claim_exclusive :
    (∀ (cache : TaskCache) (taskId workerId : String) (now : Nat) (task : Task),
        cacheGet cache taskId = some task →
        (∀ a, task.assignedTo = some a → a ≠ "") →
        (((∃ a, task.assignedTo = some a ∧ a ≠ workerId) →
            ∃ a, claimTask cache taskId workerId now =
              Except.error (TMError.alreadyAssigned taskId a) ∧
              task.assignedTo = some a) ∧
          ((∀ a, task.assignedTo = some a → a = workerId) →
            ∃ cache2 task2,
              claimTask cache taskId workerId now = Except.ok (cache2, task2) ∧
              task2.assignedTo = some workerId ∧
              task2.status = TaskStatus.in_progress))) ∧
    (∀ (cache : TaskCache) (taskId w1 w2 : String) (now1 now2 : Nat) (task : Task),
        cacheGet cache taskId = some task →
        task.assignedTo = none → w1 ≠ "" → w2 ≠ w1 →
        ∃ cache2 task2,
          claimTask cache taskId w1 now1 = Except.ok (cache2, task2) ∧
          claimTask cache2 taskId w2 now2 =
            Except.error (TMError.alreadyAssigned taskId w1)) := by
  constructor
  · intro cache taskId workerId now task hget hne
    constructor
    · rintro ⟨a, ha, hane⟩
      refine ⟨a, ?_, ha⟩
      unfold claimTask
      rw [hget]
      dsimp only
      rw [ha]
      dsimp only
      rw [if_pos ⟨hne a ha, hane⟩]
    · intro hall
      cases hassigned : task.assignedTo with
      | some a =>
          have haw : a = workerId := hall a hassigned
          refine ⟨cacheSet cache (mergePatch task (claimPatch workerId) now),
            mergePatch task (claimPatch workerId) now, ?_, ?_, ?_⟩
          · unfold claimTask
            rw [hget]
            dsimp only
            rw [hassigned]
            dsimp only
            rw [if_neg (by simp [haw])]
            exact updateTask_found hget _ now
          · simp [mergePatch, claimPatch]
          · simp [mergePatch, claimPatch]
      | none =>
          refine ⟨cacheSet cache (mergePatch task (claimPatch workerId) now),
            mergePatch task (claimPatch workerId) now, ?_, ?_, ?_⟩
          · unfold claimTask
            rw [hget]
            dsimp only
            rw [hassigned]
            dsimp only
            exact updateTask_found hget _ now
          · simp [mergePatch, claimPatch]
          · simp [mergePatch, claimPatch]
  · intro cache taskId w1 w2 now1 now2 task hget hnone hw1 hne
    refine ⟨cacheSet cache (mergePatch task (claimPatch w1) now1),
      mergePatch task (claimPatch w1) now1, ?_, ?_⟩
    · unfold claimTask
      rw [hget]
      dsimp only
      rw [hnone]
      dsimp only
      exact updateTask_found hget _ now1
    · have hid : task.id = taskId := cacheGet_some_id hget
      have hcore := mergePatch_sameCore task (claimPatch w1) now1
      have ht2id : (mergePatch task (claimPatch w1) now1).id = taskId := by
        rw [← hid]
        exact hcore.1
      have hget2 :
          cacheGet (cacheSet cache (mergePatch task (claimPatch w1) now1)) taskId =
            some (mergePatch task (claimPatch w1) now1) := by
        rw [← ht2id]
        exact cacheGet_cacheSet_self cache _
      have hassigned2 :
          (mergePatch task (claimPatch w1) now1).assignedTo = some w1 := by
        simp [mergePatch, claimPatch]
      unfold claimTask
      rw [hget2]
      dsimp only
      rw [hassigned2]
      dsimp only
      rw [if_pos ⟨hw1, Ne.symm hne⟩]

/-- C5 (witness): the two-sequential-claims conclusion at a concrete
unassigned pending task. -/
theorem claim_exclusive_witness :
    cacheGet [taskPending] "pend-1" = some taskPending ∧
    (∃ cache2 task2,
      claimTask [taskPending] "pend-1" "worker-1" 7 = Except.ok (cache2, task2) ∧
      claimTask cache2 "pend-1" "worker-2" 8 =
        Except.error (TMError.alreadyAssigned "pend-1" "worker-1")) :=
  ⟨by decide,
    claim_exclusive.2 [taskPending] "pend-1" "worker-1" "worker-2" 7 8 taskPending
      (by decide) (by decide) (by decide) (by decide)⟩

/-- C6: provided worker ids are non-empty strings, `completeTask` fails
with the not-assigned-to (Forbidden) error exactly when `assignedTo`
holds a different worker; when `assignedTo` is unset any caller may
complete, and on success the status becomes `completed` and the given
results are attached. -/
theorem complete_forbidden_iff :
    ∀ (cache : TaskCache) (taskId workerId : String) (results : Option TaskResults)
      (now : Nat) (task : Task),
      cacheGet cache taskId = some task →
      (∀ a, task.assignedTo = some a → a ≠ "") →
      (((∃ a, task.assignedTo = some a ∧ a ≠ workerId) →
          completeTask cache taskId workerId results now =
            Except.error (TMError.notAssignedTo taskId workerId)) ∧
        ((∀ a, task.assignedTo = some a → a = workerId) →
          ∃ cache2 task2,
            completeTask cache taskId workerId results now = Except.ok (cache2, task2) ∧
            task2.status = TaskStatus.completed ∧
            task2.results = results)) := by
  intro cache taskId workerId results now task hget hne
  constructor
  · rintro ⟨a, ha, hane⟩
    unfold completeTask
    rw [hget]
    dsimp only
    rw [ha]
    dsimp only
    rw [if_pos ⟨hne a ha, hane⟩]
  · intro hall
    have hstatus :
        (mergePatch task (completePatch results) now).status = TaskStatus.completed := by
      by_cases hc : task.completedAt = none <;> simp [mergePatch, completePatch, hc]
    have hresults :
        (mergePatch task (completePatch results) now).results = results := by
      by_cases hc : task.completedAt = none <;> simp [mergePatch, completePatch, hc]
    cases hassigned : task.assignedTo with
    | some a =>
        have haw : a = workerId := hall a hassigned
        refine ⟨cacheSet cache (mergePatch task (completePatch results) now),
          mergePatch task (completePatch results) now, ?_, hstatus, hresults⟩
        unfold completeTask
        rw [hget]
        dsimp only
        rw [hassigned]
        dsimp only
        rw [if_neg (by simp [haw])]
        exact updateTask_found hget _ now
    | none =>
        refine ⟨cacheSet cache (mergePatch task (completePatch results) now),
          mergePatch task (completePatch results) now, ?_, hstatus, hresults⟩
        unfold completeTask
        rw [hget]
        dsimp only
        rw [hassigned]
        dsimp only
        exact updateTask_found hget _ now

/-- C6 (witness): completing a concrete unassigned task as an arbitrary
caller succeeds with the given results attached. -/
theorem complete_forbidden_iff_witness :
    cacheGet [taskPending] "pend-1" = some taskPending ∧
    (∃ cache2 task2,
      completeTask [taskPending] "pend-1" "anyone"
          (some ⟨some ["src/a.ts"], none, none, none⟩) 9 =
        Except.ok (cache2, task2) ∧
      task2.status = TaskStatus.completed ∧
      task2.results = some ⟨some ["src/a.ts"], none, none, none⟩) :=
  ⟨by decide,
    (complete_forbidden_iff [taskPending] "pend-1" "anyone"
        (some ⟨some ["src/a.ts"], none, none, none⟩) 9 taskPending (by decide)
        (fun a h => by simp [taskPending, taskDone] at h)).2
      (fun a h => by simp [taskPending, taskDone] at h)⟩

/-- C7 (counterexample): `createTask` accepts a task whose dependencies
name an id absent from the registry — the created task is stored with the
dangling dependency and no `ValidationError` is raised (the creation path
cannot even signal one), so the claimed registry invariant is not
enforced. -/
theorem ghost_dependency_creation_accepted :
    ghostCreate.2.dependencies = some ["ghost"] ∧
    cacheGet ghostCreate.1 "task-7" = some ghostCreate.2 ∧
    cacheGet ghostCreate.1 "ghost" = none := by
  decide

/-- C7 (amended): `createTask` performs no dependency validation at all:
it always succeeds, stores the given dependencies verbatim (including ids
absent from the registry, and hence potential self-references or cycles)
and simply inserts the new pending task into the cache. -/
theorem createTask_stores_dependencies_unvalidated :
    ∀ (cache : TaskCache) (freshId title description : String) (tags : List String)
      (createdBy : String) (options : CreateOptions) (now : Nat),
      (createTask cache freshId title description tags createdBy options now).2.dependencies =
        options.dependencies ∧
      (createTask cache freshId title description tags createdBy options now).1 =
        cacheSet cache (createTask cache freshId title description tags createdBy options now).2 ∧
      (createTask cache freshId title description tags createdBy options now).2.status =
        TaskStatus.pending := by
  intro cache freshId title description tags createdBy options now
  exact ⟨rfl, rfl, rfl⟩

/-- C8: `getTasks` results are sorted by priority descending and, within
equal priority, by `createdAt` ascending (the `taskOrd` preorder holds
pairwise along the output); tasks of priorities [2, 5, 3] created in that
order are returned as [5, 3, 2], and of two equal-priority tasks the
earlier-created one comes first. -/
theorem query_ordering :
    (∀ (cache : TaskCache) (filter : TaskFilter),
        List.Pairwise taskOrd (getTasks cache filter)) ∧
    getTasks ordCache emptyFilter = [ordB, ordC, ordA] ∧
    getTasks fifoCache emptyFilter = [fifoE1, fifoE2] := by
  refine ⟨?_, by decide, by decide⟩
  intro cache filter
  exact List.sorted_insertionSort taskOrd (filterTasks cache filter)

/-- C9: once an agent's restart counter has reached the configured
maximum, `handleUnhealthyAgent` emits the failure signal and issues no
restart, leaving the agent untouched; across any `n` successive unhealthy
evaluations the number of restarts issued is `min n (max - count)`, so
from a fresh agent it is bounded by — and for `n ≥ max` equal to — the
configured ceiling. -/
theorem restart_ceiling :
    (∀ (maxRestartAttempts : Nat) (agent : AgentProcess),
        maxRestartAttempts ≤ agent.restartCount →
        handleUnhealthyAgent maxRestartAttempts agent =
          (agent, RecoveryOutcome.failedSignal)) ∧
    (∀ (maxRestartAttempts : Nat) (agent : AgentProcess) (n : Nat),
        (restartsIssued maxRestartAttempts agent n).2 =
          min n (maxRestartAttempts - agent.restartCount)) ∧
    (∀ (maxRestartAttempts : Nat) (agent : AgentProcess) (n : Nat),
        agent.restartCount = 0 →
        (restartsIssued maxRestartAttempts agent n).2 ≤ maxRestartAttempts ∧
        (maxRestartAttempts ≤ n →
          (restartsIssued maxRestartAttempts agent n).2 = maxRestartAttempts)) := by
  refine ⟨?_, ?_, ?_⟩
  · intro maxR agent h
    unfold handleUnhealthyAgent
    rw [if_pos h]
  · intro maxR agent n
    exact restartsIssued_eq_min maxR n agent
  · intro maxR agent n h
    rw [restartsIssued_eq_min, h]
    constructor
    · omega
    · intro h2
      omega

/-- C9 (witness): at ceiling 2, an agent already restarted twice gets the
failure signal and no further restart; a fresh agent evaluated 5 times
receives exactly 2 restarts. -/
theorem restart_ceiling_witness :
    (2 : Nat) ≤ 2 ∧
    handleUnhealthyAgent 2 ⟨"agent-x", 2, false⟩ =
      (⟨"agent-x", 2, false⟩, RecoveryOutcome.failedSignal) ∧
    (restartsIssued 2 ⟨"agent-y", 0, false⟩ 5).2 = 2 :=
  ⟨by decide, restart_ceiling.1 2 ⟨"agent-x", 2, false⟩ (by decide),
    (restart_ceiling.2.2 2 ⟨"agent-y", 0, false⟩ 5 (by decide)).2 (by decide)⟩

/-- C10: a successful `updateTask` leaves `id`, `title`, `description`,
`tags`, `priority`, `dependencies`, `createdBy` and `createdAt` unchanged
and alters a patch field only when the patch carries it; `claimTask`,
`completeTask` and `blockTask` likewise preserve those core fields. -/
theorem update_frame :
    (∀ (cache : TaskCache) (taskId : String) (u : TaskUpdate) (now : Nat)
        (task : Task) (cache2 : TaskCache) (task2 : Task),
        cacheGet cache taskId = some task →
        updateTask cache taskId u now = Except.ok (cache2, task2) →
        sameCore task2 task ∧
        (u.status = none → task2.status = task.status) ∧
        (u.assignedTo = none → task2.assignedTo = task.assignedTo) ∧
        (u.blockedBy = none → task2.blockedBy = task.blockedBy) ∧
        (u.results = none → task2.results = task.results) ∧
        (u.ragDocumentIds = none → task2.ragDocumentIds = task.ragDocumentIds)) ∧
    (∀ (cache : TaskCache) (taskId claimedBy : String) (now : Nat)
        (task : Task) (cache2 : TaskCache) (task2 : Task),
        cacheGet cache taskId = some task →
        claimTask cache taskId claimedBy now = Except.ok (cache2, task2) →
        sameCore task2 task) ∧
    (∀ (cache : TaskCache) (taskId completedBy : String)
        (results : Option TaskResults) (now : Nat)
        (task : Task) (cache2 : TaskCache) (task2 : Task),
        cacheGet cache taskId = some task →
        completeTask cache taskId completedBy results now = Except.ok (cache2, task2) →
        sameCore task2 task) ∧
    (∀ (cache : TaskCache) (taskId reason : String) (now : Nat)
        (task : Task) (cache2 : TaskCache) (task2 : Task),
        cacheGet cache taskId = some task →
        blockTask cache taskId reason now = Except.ok (cache2, task2) →
        sameCore task2 task) := by
  refine ⟨?_, ?_, ?_, ?_⟩
  · intro cache taskId u now task cache2 task2 hget h
    obtain ⟨task', hget', ht2, _⟩ := updateTask_ok_eq h
    rw [hget] at hget'
    cases hget'
    rw [ht2]
    exact ⟨mergePatch_sameCore task u now,
      fun hs => mergePatch_status_none hs,
      fun hs => mergePatch_assignedTo_none hs,
      fun hs => mergePatch_blockedBy_none hs,
      fun hs => mergePatch_results_none hs,
      fun hs => mergePatch_ragDocumentIds_none hs⟩
  · intro cache taskId claimedBy now task cache2 task2 hget h
    obtain ⟨u, hu⟩ := claimTask_ok_exists_patch h
    exact updateTask_ok_frame hget hu
  · intro cache taskId completedBy results now task cache2 task2 hget h
    obtain ⟨u, hu⟩ := completeTask_ok_exists_patch h
    exact updateTask_ok_frame hget hu
  · intro cache taskId reason now task cache2 task2 hget h
    exact updateTask_ok_frame hget h

/-- C10 (witness): the frame conditions at a concrete update that only
assigns a worker. -/
theorem update_frame_witness :
    cacheGet [taskPending] "pend-1" = some taskPending ∧
    (sameCore (mergePatch taskPending ⟨none, some "worker-9", none, none, none⟩ 5)
        taskPending ∧
      ((⟨none, some "worker-9", none, none, none⟩ : TaskUpdate).status = none →
        (mergePatch taskPending ⟨none, some "worker-9", none, none, none⟩ 5).status =
          taskPending.status) ∧
      ((⟨none, some "worker-9", none, none, none⟩ : TaskUpdate).assignedTo = none →
        (mergePatch taskPending ⟨none, some "worker-9", none, none, none⟩ 5).assignedTo =
          taskPending.assignedTo) ∧
      ((⟨none, some "worker-9", none, none, none⟩ : TaskUpdate).blockedBy = none →
        (mergePatch taskPending ⟨none, some "worker-9", none, none, none⟩ 5).blockedBy =
          taskPending.blockedBy) ∧
      ((⟨none, some "worker-9", none, none, none⟩ : TaskUpdate).results = none →
        (mergePatch taskPending ⟨none, some "worker-9", none, none, none⟩ 5).results =
          taskPending.results) ∧
      ((⟨none, some "worker-9", none, none, none⟩ : TaskUpdate).ragDocumentIds = none →
        (mergePatch taskPending ⟨none, some "worker-9", none, none, none⟩ 5).ragDocumentIds =
          taskPending.ragDocumentIds)) :=
  ⟨by decide,
    update_frame.1 [taskPending] "pend-1" ⟨none, some "worker-9", none, none, none⟩ 5
      taskPending
      (cacheSet [taskPending]
        (mergePatch taskPending ⟨none, some "worker-9", none, none, none⟩ 5))
      (mergePatch taskPending ⟨none, some "worker-9", none, none, none⟩ 5)
      (by decide) (by decide)⟩

end MCPRAG
